import Mathlib

/-!
# The LevelDB key-value adapter of the node's storage layer

A shallow embedding of `blockchain/storage/leveldb/leveldb.go`.

The Go code is a thin adapter over the goleveldb engine.  The engine is not part
of the repository, so it enters the development as a parameter: a record
`Backend` of state-passing operations.  Every adapter function is translated
over an arbitrary `Backend`; a small executable engine, `memBackend`, is used
wherever a statement has to be evaluated on concrete data.
-/

namespace leveldb

/-! ## Go values -/

/-- Contents of a Go byte slice. -/
abbrev Bytes := List UInt8

/-- A Go `[]byte`: `none` is the nil slice, `some bs` a non-nil slice holding `bs`. -/
abbrev GoBytes := Option Bytes

/-- The bytes a slice holds; the nil slice holds none. -/
def bytesOf (b : GoBytes) : Bytes := b.getD []

/-- What kind of error value an `error` is: the part of a Go error that `==`
and `errors.Is` observe, as opposed to the text its `Error()` method prints. -/
inductive ErrKind where
  | notFound
  | closed
  | fault
  | config
  deriving DecidableEq

/-- A Go `error` value: its kind and the string returned by `Error()`. -/
structure GoError where
  kind : ErrKind
  text : String
  deriving DecidableEq

/-- The Go expression `err.Error()`. -/
def GoError.Error (e : GoError) : String := e.text

/-- The Go call `fmt.Errorf(msg)` for a message without formatting verbs. -/
def Errorf (msg : String) : GoError := { kind := ErrKind.config, text := msg }

/-- The engine's sentinel `leveldb.ErrNotFound`, made by `errors.New("leveldb: not found")`. -/
def ErrNotFound : GoError := { kind := ErrKind.notFound, text := "leveldb: not found" }

/-- The engine's sentinel `leveldb.ErrClosed`, made by `errors.New("leveldb: closed")`. -/
def ErrClosed : GoError := { kind := ErrKind.closed, text := "leveldb: closed" }

/-- Dynamic values of Go's `interface{}`, as far as the type assertion `.(string)`
can tell them apart; `other n` stands for a value of any further dynamic type. -/
inductive GoValue where
  | null
  | bool (b : Bool)
  | int (i : Int)
  | str (s : String)
  | bytes (b : Bytes)
  | other (tag : Nat)
  deriving DecidableEq

/-- A Go `map[string]interface{}`; `config k` is the comma-ok lookup `config[k]`. -/
abbrev Config := String → Option GoValue

/-- The comma-ok type assertion `v.(string)`. -/
def GoValue.asString : GoValue → Option String
  | GoValue.str s => some s
  | _ => none

/-- An `hclog.Logger`, reduced to the name it carries. -/
structure Logger where
  name : String
  deriving DecidableEq

/-- The method `Logger.Named` of hclog: appends to the name, dot-separated. -/
def Logger.Named (l : Logger) (n : String) : Logger :=
  if l.name = "" then { name := n } else { name := l.name ++ "." ++ n }

/-! ## The engine's option records -/

/-- The constant `opt.KiB`. -/
def opt.KiB : Int := 1024

/-- The constant `opt.MiB`. -/
def opt.MiB : Int := opt.KiB * 1024

/-- The fields of `opt.Options` that the adapter sets, and two of those it
leaves at their zero value. -/
structure opt.Options where
  BlockCacheCapacity : Int := 0
  OpenFilesCacheCapacity : Int := 0
  WriteBuffer : Int := 0
  NoSync : Bool := false
  ReadOnly : Bool := false
  deriving DecidableEq

/-- The record `opt.WriteOptions`. -/
structure opt.WriteOptions where
  NoWriteMerge : Bool := false
  Sync : Bool := false
  deriving DecidableEq

/-- The record `opt.ReadOptions`. -/
structure opt.ReadOptions where
  DontFillCache : Bool := false
  deriving DecidableEq

/-- One record of an engine batch. -/
inductive PendingOperation where
  | Set (key : GoBytes) (value : GoBytes)
  | Delete (key : GoBytes)
  deriving DecidableEq

/-! ## The engine as a parameter -/

/-- The goleveldb entry points the adapter calls.  `ω` is the state of the
world outside a handle (the file system), `δ` the state behind one open
`*leveldb.DB`.  Each call returns its Go results and the state it leaves.
`OpenFile` yields a handle exactly when its error is nil, hence `Except`; the
options and read or write options are pointers, `none` being nil. -/
structure Backend (ω δ : Type) where
  openFile : ω → String → Option opt.Options → Except GoError δ × ω
  get : δ → GoBytes → Option opt.ReadOptions → (GoBytes × Option GoError) × δ
  put : δ → GoBytes → GoBytes → Option opt.WriteOptions → Option GoError × δ
  close : δ → Option GoError × δ
  write : δ → List PendingOperation → Option opt.WriteOptions → Option GoError × δ

/-! ## The adapter -/

/-- The constant `DefaultCache`. -/
def DefaultCache : Int := 256

/-- The constant `DefaultHandles`. -/
def DefaultHandles : Int := 256

/-- The struct `levelDBKV`: the adapter owns one engine handle. -/
structure levelDBKV (δ : Type) where
  db : δ

/-- The method `levelDBKV.Set`. -/
def levelDBKV.Set {ω δ : Type} (B : Backend ω δ) (l : levelDBKV δ) (p v : GoBytes) :
    Option GoError × levelDBKV δ :=
  match B.put l.db p v (some { Sync := true }) with
  | (err, db) => (err, { db := db })

/-- The method `levelDBKV.Get`; the result is `((value, found, error), receiver)`. -/
def levelDBKV.Get {ω δ : Type} (B : Backend ω δ) (l : levelDBKV δ) (p : GoBytes) :
    (GoBytes × Bool × Option GoError) × levelDBKV δ :=
  match B.get l.db p none with
  | ((data, err), db) =>
    match err with
    | some e =>
      if e.Error = "leveldb: not found" then
        ((none, false, none), { db := db })
      else
        ((none, false, some e), { db := db })
    | none => ((data, true, none), { db := db })

/-- The method `levelDBKV.Close`. -/
def levelDBKV.Close {ω δ : Type} (B : Backend ω δ) (l : levelDBKV δ) :
    Option GoError × levelDBKV δ :=
  match B.close l.db with
  | (err, db) => (err, { db := db })

/-- Modelled from the spec: the constructor `storage.NewKeyValueStorage` of the
generic storage package, which is not among the sources.  The spec calls the
factory output "a ready-to-use KeyValueStore" that wraps one engine adapter
behind the uniform interface; the model is the record holding the logger and
the adapter it was given. -/
structure KeyValueStorage (δ : Type) where
  logger : Logger
  db : levelDBKV δ

/-- Modelled from the spec: see `KeyValueStorage`. -/
def NewKeyValueStorage {δ : Type} (logger : Logger) (db : levelDBKV δ) : KeyValueStorage δ :=
  { logger := logger, db := db }

/-- The function `NewLevelDBStorageWithOpt`; the result is `((storage, error), world)`,
with `none` for a nil interface value. -/
def NewLevelDBStorageWithOpt {ω δ : Type} (B : Backend ω δ) (w : ω) (path : String)
    (logger : Logger) (opts : Option opt.Options) :
    (Option (KeyValueStorage δ) × Option GoError) × ω :=
  match B.openFile w path opts with
  | (Except.error err, w1) => ((none, some err), w1)
  | (Except.ok db, w1) =>
    let kv : levelDBKV δ := { db := db }
    ((some (NewKeyValueStorage (logger.Named "leveldb") kv), none), w1)

/-- The function `NewLevelDBStorage`. -/
def NewLevelDBStorage {ω δ : Type} (B : Backend ω δ) (w : ω) (path : String)
    (logger : Logger) : (Option (KeyValueStorage δ) × Option GoError) × ω :=
  let options : opt.Options :=
    { OpenFilesCacheCapacity := DefaultHandles
      BlockCacheCapacity := Int.tdiv DefaultCache 2 * opt.MiB
      WriteBuffer := Int.tdiv DefaultCache 4 * opt.MiB }
  NewLevelDBStorageWithOpt B w path logger (some options)

/-- The function `Factory`. -/
def Factory {ω δ : Type} (B : Backend ω δ) (w : ω) (config : Config) (logger : Logger) :
    (Option (KeyValueStorage δ) × Option GoError) × ω :=
  match config "path" with
  | none => ((none, some (Errorf "path not found")), w)
  | some path =>
    match path.asString with
    | none => ((none, some (Errorf "path is not a string")), w)
    | some pathStr => NewLevelDBStorage B w pathStr logger

/-! ## The batch -/

/-- Modelled from the spec: the batch type of `batch.go`, which is not among the
sources.  The spec describes it as "an accumulator of pending mutations
(set/delete operations)" held in an "ordered sequence" and bound to the store
it was created from.  The engine handle the Go batch points to is the one held
by the store, so the model keeps only the accumulated records. -/
structure batchLevelDB where
  b : List PendingOperation

/-- Modelled from the spec: `NewBatchLevelDB`, absent from the sources;
"allocates a fresh, empty batch bound to this store". -/
def NewBatchLevelDB {δ : Type} (_db : δ) : batchLevelDB := { b := [] }

/-- The method `levelDBKV.NewBatch`. -/
def levelDBKV.NewBatch {δ : Type} (l : levelDBKV δ) : batchLevelDB :=
  NewBatchLevelDB l.db

/-- Modelled from the spec: `Put(key, value)` "appends a Set operation; no I/O". -/
def batchLevelDB.Put (b : batchLevelDB) (k v : GoBytes) : batchLevelDB :=
  { b := b.b ++ [PendingOperation.Set k v] }

/-- Modelled from the spec: `Delete(key)` "appends a Delete operation". -/
def batchLevelDB.Delete (b : batchLevelDB) (k : GoBytes) : batchLevelDB :=
  { b := b.b ++ [PendingOperation.Delete k] }

/-- Modelled from the spec: `Write()` "applies all accumulated operations against
the backend in a single durable commit" and "returns the backend error on
failure"; `l` is the store the batch is bound to. -/
def batchLevelDB.Write {ω δ : Type} (B : Backend ω δ) (b : batchLevelDB) (l : levelDBKV δ) :
    Option GoError × levelDBKV δ :=
  match B.write l.db b.b (some { Sync := true }) with
  | (err, db) => (err, { db := db })

/-- A store together with a batch bound to it. -/
structure Session (δ : Type) where
  store : levelDBKV δ
  batch : batchLevelDB

/-- A mutation a caller accumulates in a batch. -/
inductive BatchCall where
  | Put (k v : GoBytes)
  | Delete (k : GoBytes)
  deriving DecidableEq

/-- One accumulating call on the batch of a session. -/
def Session.call {δ : Type} (s : Session δ) : BatchCall → Session δ
  | BatchCall.Put k v => { s with batch := s.batch.Put k v }
  | BatchCall.Delete k => { s with batch := s.batch.Delete k }

/-- A fresh batch on `l`, followed by the given accumulating calls in order. -/
def Session.build {δ : Type} (l : levelDBKV δ) (calls : List BatchCall) : Session δ :=
  calls.foldl Session.call { store := l, batch := l.NewBatch }

/-- What the last call on key `k` asks for: `none` when no call names `k`,
`some none` for a delete, `some (some v)` for a put of `v`. -/
def lastCall (k : Bytes) : List BatchCall → Option (Option Bytes)
  | [] => none
  | c :: rest =>
    match lastCall k rest with
    | some r => some r
    | none =>
      match c with
      | BatchCall.Put k1 v => if bytesOf k1 = k then some (some (bytesOf v)) else none
      | BatchCall.Delete k1 => if bytesOf k1 = k then some none else none

/-! ## Recording the engine calls -/

/-- An engine call with its arguments. -/
inductive Call where
  | OpenFile (path : String) (o : Option opt.Options)
  | Get (key : GoBytes) (ro : Option opt.ReadOptions)
  | Put (key value : GoBytes) (wo : Option opt.WriteOptions)
  | Close
  | Write (ops : List PendingOperation) (wo : Option opt.WriteOptions)
  deriving DecidableEq

/-- The same engine, with every call appended to a log carried next to the state. -/
def Backend.logged {ω δ : Type} (B : Backend ω δ) : Backend (ω × List Call) (δ × List Call) where
  openFile w path o :=
    match B.openFile w.1 path o with
    | (Except.ok d, w1) => (Except.ok (d, []), (w1, w.2 ++ [Call.OpenFile path o]))
    | (Except.error e, w1) => (Except.error e, (w1, w.2 ++ [Call.OpenFile path o]))
  get d k ro :=
    match B.get d.1 k ro with
    | (r, d1) => (r, (d1, d.2 ++ [Call.Get k ro]))
  put d k v wo :=
    match B.put d.1 k v wo with
    | (r, d1) => (r, (d1, d.2 ++ [Call.Put k v wo]))
  close d :=
    match B.close d.1 with
    | (r, d1) => (r, (d1, d.2 ++ [Call.Close]))
  write d ops wo :=
    match B.write d.1 ops wo with
    | (r, d1) => (r, (d1, d.2 ++ [Call.Write ops wo]))

/-- The engine contract for closed handles: `Close` leaves the handle closed,
and on a closed handle `Get` and `Put` return `ErrClosed` and leave it closed. -/
structure Backend.RejectsClosed {ω δ : Type} (B : Backend ω δ) (isClosed : δ → Prop) : Prop where
  close_closes : ∀ d, isClosed (B.close d).2
  get_closed : ∀ d k ro, isClosed d → (B.get d k ro).1.2 = some ErrClosed ∧ isClosed (B.get d k ro).2
  put_closed : ∀ d k v wo, isClosed d → (B.put d k v wo).1 = some ErrClosed ∧ isClosed (B.put d k v wo).2

/-! ## An executable engine: a key-value map -/

/-- State of the in-memory engine: closed flag, an injected failure, the table. -/
structure MemDB where
  closed : Bool
  fault : Option GoError
  table : Bytes → Option Bytes

/-- State of the in-memory file system: the paths whose lock is held. -/
structure MemFS where
  locked : List String

/-- The error of opening a path whose lock is held. -/
def ErrLocked : GoError := { kind := ErrKind.fault, text := "resource temporarily unavailable" }

/-- A freshly opened, empty in-memory engine. -/
def MemDB.empty : MemDB := { closed := false, fault := none, table := fun _ => none }

/-- The effect of one batch record on a table. -/
def MemDB.apply (t : Bytes → Option Bytes) : PendingOperation → (Bytes → Option Bytes)
  | PendingOperation.Set k v => Function.update t (bytesOf k) (some (bytesOf v))
  | PendingOperation.Delete k => Function.update t (bytesOf k) none

/-- An engine that behaves as a key-value map: a closed handle answers
`ErrClosed`, an injected failure is returned by every call and changes
nothing, a lookup miss is `ErrNotFound`, and a batch is applied as a whole. -/
def memBackend : Backend MemFS MemDB where
  openFile w path _ :=
    if path ∈ w.locked then (Except.error ErrLocked, w)
    else (Except.ok MemDB.empty, { locked := path :: w.locked })
  get d k _ :=
    if d.closed then ((none, some ErrClosed), d)
    else
      match d.fault with
      | some e => ((none, some e), d)
      | none =>
        match d.table (bytesOf k) with
        | some v => ((some v, none), d)
        | none => ((none, some ErrNotFound), d)
  put d k v _ :=
    if d.closed then (some ErrClosed, d)
    else
      match d.fault with
      | some e => (some e, d)
      | none => (none, { d with table := Function.update d.table (bytesOf k) (some (bytesOf v)) })
  close d :=
    if d.closed then (some ErrClosed, d) else (none, { d with closed := true })
  write d ops _ :=
    if d.closed then (some ErrClosed, d)
    else
      match d.fault with
      | some e => (some e, d)
      | none => (none, { d with table := ops.foldl MemDB.apply d.table })

/-! ## Concrete data used in the statements -/

/-- An engine failure that is not the not-found sentinel but prints the same text. -/
def errSameText : GoError := { kind := ErrKind.fault, text := "leveldb: not found" }

/-- An in-memory engine that stores key [1] and fails every call with `errSameText`. -/
def failingDB : MemDB :=
  { closed := false
    fault := some errSameText
    table := Function.update (fun _ => none) [1] (some [9]) }

/-- The default tuning values written out as numbers, every other field zero. -/
def defaultOptions : opt.Options :=
  { BlockCacheCapacity := 134217728
    OpenFilesCacheCapacity := 256
    WriteBuffer := 67108864
    NoSync := false
    ReadOnly := false }

/-- Whether message `msg` names the configuration key `key`. -/
def namesKey (key msg : String) : Bool := key.toList.isPrefixOf msg.toList

/-- A configuration whose "path" is an integer. -/
def configIntPath : Config := fun k => if k = "path" then some (GoValue.int 7) else none

/-- A configuration whose "path" is the string "/data/chain", with one more key. -/
def configGood : Config := fun k =>
  if k = "path" then some (GoValue.str "/data/chain")
  else if k = "cache" then some (GoValue.int 512) else none

/-- The same "path" as `configGood`, and no other key. -/
def configGoodBare : Config := fun k =>
  if k = "path" then some (GoValue.str "/data/chain") else none

/-- An in-memory engine that stores key [1] with value [9]. -/
def storedDB : MemDB :=
  { closed := false
    fault := none
    table := Function.update (fun _ => none) [1] (some [9]) }

/-- The batch record a call accumulates. -/
def BatchCall.toOp : BatchCall → PendingOperation
  | BatchCall.Put k v => PendingOperation.Set k v
  | BatchCall.Delete k => PendingOperation.Delete k

/-- The calls of the batch [Put(a, 1), Put(b, 2)], with a = [97] and b = [98]. -/
def twoPuts : List BatchCall :=
  [BatchCall.Put (some [97]) (some [1]), BatchCall.Put (some [98]) (some [2])]

/-- An in-memory engine that stores key [1] and fails every call with `ErrLocked`. -/
def brokenDB : MemDB :=
  { closed := false
    fault := some ErrLocked
    table := Function.update (fun _ => none) [1] (some [9]) }

/-! # Theorems -/

/-! ## Lookup misses -/

/-- C1: when the engine lookup reports its not-found sentinel, the error whose
text is "leveldb: not found", `levelDBKV.Get` returns exactly
(nil value, found = false, nil error). -/
theorem Get_miss_is_not_an_error {ω δ : Type} (B : Backend ω δ) (l : levelDBKV δ) (p : GoBytes)
    (h : (B.get l.db p none).1.2 = some ErrNotFound) :
    (levelDBKV.Get B l p).1 = (none, false, none) := by
  unfold levelDBKV.Get
  rcases hr : B.get l.db p none with ⟨⟨data, err⟩, db⟩
  rw [hr] at h
  simp only at h
  subst h
  simp [GoError.Error, ErrNotFound]

/-- Witness for C1: a lookup of an unset key in the empty in-memory engine. -/
theorem Get_miss_is_not_an_error_witness :
    (memBackend.get MemDB.empty (some [1, 2]) none).1.2 = some ErrNotFound ∧
    (levelDBKV.Get memBackend { db := MemDB.empty } (some [1, 2])).1 = (none, false, none) :=
  ⟨by decide, Get_miss_is_not_an_error memBackend { db := MemDB.empty } (some [1, 2]) (by decide)⟩

/-! ## Absence and the text of the error -/

/-- C2, counterexample: the engine holds key [1] and fails the lookup with an
error that is not `ErrNotFound`; `levelDBKV.Get` still answers found = false
with a nil error, because the error prints the not-found text. -/
theorem Get_absence_counterexample :
    (memBackend.get failingDB (some [1]) none).1.2 = some errSameText ∧
    errSameText ≠ ErrNotFound ∧
    errSameText.kind = ErrKind.fault ∧
    failingDB.table [1] = some [9] ∧
    (levelDBKV.Get memBackend { db := failingDB } (some [1])).1 = (none, false, none) := by
  refine ⟨by decide, by decide, rfl, by decide, by decide⟩

/-- C2, amended: `levelDBKV.Get` returns found = false with a nil error exactly
when the engine lookup returned an error whose `Error()` text is
"leveldb: not found"; the value is then nil. -/
theorem Get_absent_iff_error_text {ω δ : Type} (B : Backend ω δ) (l : levelDBKV δ) (p : GoBytes) :
    ((levelDBKV.Get B l p).1.2 = (false, none) ↔
      ∃ e, (B.get l.db p none).1.2 = some e ∧ e.Error = "leveldb: not found") ∧
    ((levelDBKV.Get B l p).1.2 = (false, none) → (levelDBKV.Get B l p).1.1 = none) := by
  unfold levelDBKV.Get
  rcases hr : B.get l.db p none with ⟨⟨data, err⟩, db⟩
  cases err with
  | none => simp
  | some e =>
    by_cases ht : e.Error = "leveldb: not found"
    · simp [ht]
    · simp [ht]

/-! ## Default options -/

/-- C10: `NewLevelDBStorage path` is `NewLevelDBStorageWithOpt path opts` where
`opts` has 256 open-file handles, a block cache of 256/2 MiB = 134217728 bytes
and a write buffer of 256/4 MiB = 67108864 bytes, all other fields zero; the
block cache and two write buffers add up to `DefaultCache` MiB. -/
theorem NewLevelDBStorage_default_options {ω δ : Type} (B : Backend ω δ) (w : ω)
    (path : String) (logger : Logger) :
    NewLevelDBStorage B w path logger
        = NewLevelDBStorageWithOpt B w path logger (some defaultOptions) ∧
    defaultOptions.OpenFilesCacheCapacity = DefaultHandles ∧
    defaultOptions.BlockCacheCapacity = Int.tdiv DefaultCache 2 * opt.MiB ∧
    defaultOptions.WriteBuffer = Int.tdiv DefaultCache 4 * opt.MiB ∧
    defaultOptions.BlockCacheCapacity + 2 * defaultOptions.WriteBuffer = DefaultCache * opt.MiB ∧
    DefaultCache * opt.MiB = 268435456 := by
  refine ⟨?_, by decide, by decide, by decide, by decide, by decide⟩
  unfold NewLevelDBStorage
  have h : ({ OpenFilesCacheCapacity := DefaultHandles
              BlockCacheCapacity := Int.tdiv DefaultCache 2 * opt.MiB
              WriteBuffer := Int.tdiv DefaultCache 4 * opt.MiB } : opt.Options)
      = defaultOptions := by decide
  simp only [h]

/-! ## Durable writes -/

/-- C5: over any engine, `levelDBKV.Set p v` makes exactly one engine call, a
`Put` of `p` and `v` with `Sync = true`, and returns the result of that call
unchanged. -/
theorem Set_is_one_synced_Put {ω δ : Type} (B : Backend ω δ) (d : δ) (log : List Call)
    (p v : GoBytes) :
    levelDBKV.Set B.logged { db := (d, log) } p v
      = ((B.put d p v (some { NoWriteMerge := false, Sync := true })).1,
         { db := ((B.put d p v (some { NoWriteMerge := false, Sync := true })).2,
                  log ++ [Call.Put p v (some { NoWriteMerge := false, Sync := true })]) }) := by
  simp [levelDBKV.Set, Backend.logged]

/-! ## The factory -/

/-- C4: when the configuration has no "path" key, or maps it to a value that is
not a string, `Factory` returns a nil store and a non-nil error whose message
names the key "path", makes no engine call and leaves the world as it was. -/
theorem Factory_rejects_bad_path {ω δ : Type} (B : Backend ω δ) (w : ω) (log : List Call)
    (config : Config) (logger : Logger)
    (h : config "path" = none ∨ ∃ v, config "path" = some v ∧ v.asString = none) :
    ∃ e, Factory B.logged (w, log) config logger = ((none, some e), (w, log)) ∧
      namesKey "path" e.Error = true ∧
      (e.Error = "path not found" ∨ e.Error = "path is not a string") := by
  rcases h with h | ⟨v, hv, hs⟩
  · exact ⟨Errorf "path not found", by simp [Factory, h], by decide, Or.inl rfl⟩
  · exact ⟨Errorf "path is not a string", by simp [Factory, hv, hs], by decide, Or.inr rfl⟩

/-- Witness for C4: a configuration whose "path" is the integer 7. -/
theorem Factory_rejects_bad_path_witness :
    (configIntPath "path" = none ∨ ∃ v, configIntPath "path" = some v ∧ v.asString = none) ∧
    ∃ e, Factory memBackend.logged ({ locked := [] }, []) configIntPath { name := "node" }
        = ((none, some e), ({ locked := [] }, [])) ∧
      namesKey "path" e.Error = true ∧
      (e.Error = "path not found" ∨ e.Error = "path is not a string") :=
  ⟨Or.inr ⟨GoValue.int 7, by decide, by decide⟩,
   Factory_rejects_bad_path memBackend { locked := [] } [] configIntPath { name := "node" }
     (Or.inr ⟨GoValue.int 7, by decide, by decide⟩)⟩

/-- C7: when "path" is the string `p`, `Factory` makes exactly one engine call,
`OpenFile` at `p`; if the open succeeds it returns a non-nil store and a nil
error, if the open fails it returns a nil store and the engine's error
unchanged; it never returns both a store and an error. -/
theorem Factory_opens_path {ω δ : Type} (B : Backend ω δ) (w : ω) (log : List Call)
    (config : Config) (logger : Logger) (p : String)
    (h : config "path" = some (GoValue.str p)) :
    (Factory B.logged (w, log) config logger).2
        = ((B.openFile w p (some defaultOptions)).2,
           log ++ [Call.OpenFile p (some defaultOptions)]) ∧
    ((∃ d, (B.openFile w p (some defaultOptions)).1 = Except.ok d ∧
        (Factory B.logged (w, log) config logger).1
          = (some (NewKeyValueStorage (logger.Named "leveldb") { db := (d, []) }), none)) ∨
     (∃ e, (B.openFile w p (some defaultOptions)).1 = Except.error e ∧
        (Factory B.logged (w, log) config logger).1 = (none, some e))) ∧
    ¬ ((Factory B.logged (w, log) config logger).1.1.isSome = true ∧
        (Factory B.logged (w, log) config logger).1.2.isSome = true) := by
  have hopt : ({ OpenFilesCacheCapacity := DefaultHandles
                 BlockCacheCapacity := Int.tdiv DefaultCache 2 * opt.MiB
                 WriteBuffer := Int.tdiv DefaultCache 4 * opt.MiB } : opt.Options)
      = defaultOptions := by decide
  rcases ho : B.openFile w p (some defaultOptions) with ⟨r, w1⟩
  cases r with
  | ok d =>
    simp [Factory, h, GoValue.asString, NewLevelDBStorage, NewLevelDBStorageWithOpt,
      Backend.logged, hopt, ho]
  | error e =>
    simp [Factory, h, GoValue.asString, NewLevelDBStorage, NewLevelDBStorageWithOpt,
      Backend.logged, hopt, ho]

/-- Witness for C7: the configuration `configGood` on a file system without locks. -/
theorem Factory_opens_path_witness :
    configGood "path" = some (GoValue.str "/data/chain") ∧
    (Factory memBackend.logged ({ locked := [] }, []) configGood { name := "node" }).2.2
        = [Call.OpenFile "/data/chain" (some defaultOptions)] :=
  ⟨by decide,
   congrArg Prod.snd (Factory_opens_path memBackend { locked := [] } [] configGood
     { name := "node" } "/data/chain" (by decide)).1⟩

/-- C9: two configurations that agree on the key "path" give the same result
of `Factory`, over the same engine, world and logger, whatever their other keys. -/
theorem Factory_depends_only_on_path {ω δ : Type} (B : Backend ω δ) (w : ω)
    (c1 c2 : Config) (logger : Logger) (h : c1 "path" = c2 "path") :
    Factory B w c1 logger = Factory B w c2 logger := by
  unfold Factory
  rw [h]

/-- Witness for C9: `configGood` and `configGoodBare` differ on the key "cache" only. -/
theorem Factory_depends_only_on_path_witness :
    configGood "path" = configGoodBare "path" ∧
    configGood "cache" ≠ configGoodBare "cache" ∧
    Factory memBackend.logged ({ locked := [] }, []) configGood { name := "node" }
      = Factory memBackend.logged ({ locked := [] }, []) configGoodBare { name := "node" } :=
  ⟨by decide, by decide,
   Factory_depends_only_on_path memBackend.logged ({ locked := [] }, []) configGood
     configGoodBare { name := "node" } (by decide)⟩

/-! ## Use after close -/

/-- The in-memory engine honours the closed-handle contract. -/
theorem memBackend_rejectsClosed : memBackend.RejectsClosed (fun d => d.closed = true) where
  close_closes d := by
    cases hc : d.closed <;> simp [memBackend, hc]
  get_closed d k ro hd := by
    have hc : d.closed = true := hd
    simp [memBackend, hc]
  put_closed d k v wo hd := by
    have hc : d.closed = true := hd
    simp [memBackend, hc]

/-- C6: over an engine that rejects calls on a closed handle with `ErrClosed`,
the handle is closed once `levelDBKV.Close` has returned, and on a closed
handle every `Get` returns (nil, found = false, `ErrClosed`) and every `Set`
returns `ErrClosed`, the handle staying closed. -/
theorem Get_Set_after_Close {ω δ : Type} (B : Backend ω δ) (isClosed : δ → Prop)
    (hB : B.RejectsClosed isClosed) (l : levelDBKV δ) :
    isClosed (levelDBKV.Close B l).2.db ∧
    ∀ l2 : levelDBKV δ, isClosed l2.db → ∀ p v : GoBytes,
      (levelDBKV.Get B l2 p).1 = (none, false, some ErrClosed) ∧
      isClosed (levelDBKV.Get B l2 p).2.db ∧
      (levelDBKV.Set B l2 p v).1 = some ErrClosed ∧
      isClosed (levelDBKV.Set B l2 p v).2.db := by
  refine ⟨?_, ?_⟩
  · have h := hB.close_closes l.db
    unfold levelDBKV.Close
    rcases hr : B.close l.db with ⟨err, db⟩
    rw [hr] at h
    exact h
  · intro l2 hc p v
    have hg := hB.get_closed l2.db p none hc
    have hp := hB.put_closed l2.db p v (some { NoWriteMerge := false, Sync := true }) hc
    unfold levelDBKV.Get levelDBKV.Set
    rcases hr : B.get l2.db p none with ⟨⟨data, err⟩, db⟩
    rcases hw : B.put l2.db p v (some { NoWriteMerge := false, Sync := true }) with ⟨werr, wdb⟩
    rw [hr] at hg
    rw [hw] at hp
    obtain ⟨hg1, hg2⟩ := hg
    obtain ⟨hp1, hp2⟩ := hp
    simp only at hg1 hg2 hp1 hp2
    subst hg1
    subst hp1
    refine ⟨?_, ?_, rfl, hp2⟩
    · simp [GoError.Error, ErrClosed]
    · simp [GoError.Error, ErrClosed]
      exact hg2

/-- Witness for C6: closing the in-memory engine that stores key [1], then
looking that key up and setting it. -/
theorem Get_Set_after_Close_witness :
    memBackend.RejectsClosed (fun d => d.closed = true) ∧
    (levelDBKV.Get memBackend (levelDBKV.Close memBackend { db := storedDB }).2 (some [1])).1
      = (none, false, some ErrClosed) ∧
    (levelDBKV.Set memBackend (levelDBKV.Close memBackend { db := storedDB }).2
      (some [1]) (some [2])).1 = some ErrClosed :=
  ⟨memBackend_rejectsClosed,
   ((Get_Set_after_Close memBackend _ memBackend_rejectsClosed { db := storedDB }).2 _
      (Get_Set_after_Close memBackend _ memBackend_rejectsClosed { db := storedDB }).1
      (some [1]) (some [2])).1,
   ((Get_Set_after_Close memBackend _ memBackend_rejectsClosed { db := storedDB }).2 _
      (Get_Set_after_Close memBackend _ memBackend_rejectsClosed { db := storedDB }).1
      (some [1]) (some [2])).2.2.1⟩

/-! ## Round trip -/

/-- C3: over the key-value map engine, after `levelDBKV.Set k v` has returned
nil, `levelDBKV.Get k` returns found = true, a nil error and a value holding
exactly the bytes of `v`, whatever the store held for `k` before. -/
theorem Set_then_Get {k v : GoBytes} (d : MemDB)
    (h : (levelDBKV.Set memBackend { db := d } k v).1 = none) :
    (levelDBKV.Get memBackend (levelDBKV.Set memBackend { db := d } k v).2 k).1
      = (some (bytesOf v), true, none) ∧
    bytesOf (levelDBKV.Get memBackend (levelDBKV.Set memBackend { db := d } k v).2 k).1.1
      = bytesOf v := by
  have key : (levelDBKV.Get memBackend (levelDBKV.Set memBackend { db := d } k v).2 k).1
      = (some (bytesOf v), true, none) := by
    revert h
    cases hc : d.closed
    · cases hf : d.fault with
      | none => simp [levelDBKV.Set, levelDBKV.Get, memBackend, hc, hf]
      | some e => simp [levelDBKV.Set, memBackend, hc, hf]
    · simp [levelDBKV.Set, memBackend, hc]
  refine ⟨key, ?_⟩
  rw [key]
  rfl

/-- Witness for C3: the empty value written over a key that already had one. -/
theorem Set_then_Get_witness :
    storedDB.table [1] = some [9] ∧
    (levelDBKV.Set memBackend { db := storedDB } (some [1]) (some [])).1 = none ∧
    (levelDBKV.Get memBackend
        (levelDBKV.Set memBackend { db := storedDB } (some [1]) (some [])).2 (some [1])).1
      = (some [], true, none) :=
  ⟨by decide, by decide, (Set_then_Get storedDB (by decide)).1⟩

/-! ## Batches -/

/-- Accumulating calls leave the store of a session alone and append their
records to the batch in order. -/
theorem Session.foldl_call {δ : Type} (calls : List BatchCall) (s : Session δ) :
    (calls.foldl Session.call s).store = s.store ∧
    (calls.foldl Session.call s).batch.b = s.batch.b ++ calls.map BatchCall.toOp := by
  induction calls generalizing s with
  | nil => simp
  | cons c rest ih =>
    cases c with
    | Put k v =>
      have h := ih (s.call (BatchCall.Put k v))
      simpa [Session.call, batchLevelDB.Put, BatchCall.toOp] using h
    | Delete k =>
      have h := ih (s.call (BatchCall.Delete k))
      simpa [Session.call, batchLevelDB.Delete, BatchCall.toOp] using h

/-- Applying the records of a list of calls to a table leaves, at every key,
what the last call on that key asks for. -/
theorem foldl_apply_lastCall (calls : List BatchCall) (t : Bytes → Option Bytes) (k : Bytes) :
    (calls.map BatchCall.toOp).foldl MemDB.apply t k
      = match lastCall k calls with
        | some r => r
        | none => t k := by
  induction calls generalizing t with
  | nil => simp [lastCall]
  | cons c rest ih =>
    simp only [List.map_cons, List.foldl_cons, lastCall]
    rw [ih]
    cases hl : lastCall k rest with
    | some r => simp
    | none =>
      cases c with
      | Put k1 v =>
        by_cases hk : bytesOf k1 = k
        · subst hk
          simp [BatchCall.toOp, MemDB.apply]
        · have hk2 : k ≠ bytesOf k1 := fun h => hk h.symm
          simp [BatchCall.toOp, MemDB.apply, hk, Function.update_noteq hk2]
      | Delete k1 =>
        by_cases hk : bytesOf k1 = k
        · subst hk
          simp [BatchCall.toOp, MemDB.apply]
        · have hk2 : k ≠ bytesOf k1 := fun h => hk h.symm
          simp [BatchCall.toOp, MemDB.apply, hk, Function.update_noteq hk2]

/-- C8: over the key-value map engine, accumulating any sequence of Put and
Delete calls in a fresh batch leaves the store untouched; when `Write` returns
nil, every key answers to `Get` with what the last call on it asked for, and
keys no call names answer as before; when `Write` returns an error, the store
is left exactly as it was. -/
theorem Batch_Write_all_or_nothing (d : MemDB) (calls : List BatchCall) :
    (Session.build { db := d } calls).store = { db := d } ∧
    ((batchLevelDB.Write memBackend (Session.build { db := d } calls).batch
        (Session.build { db := d } calls).store).1 = none →
      ∀ k : GoBytes,
        (levelDBKV.Get memBackend
          (batchLevelDB.Write memBackend (Session.build { db := d } calls).batch
            (Session.build { db := d } calls).store).2 k).1
        = match lastCall (bytesOf k) calls with
          | some (some v) => (some v, true, none)
          | some none => (none, false, none)
          | none => (levelDBKV.Get memBackend { db := d } k).1) ∧
    (∀ e, (batchLevelDB.Write memBackend (Session.build { db := d } calls).batch
        (Session.build { db := d } calls).store).1 = some e →
      (batchLevelDB.Write memBackend (Session.build { db := d } calls).batch
        (Session.build { db := d } calls).store).2 = { db := d }) := by
  obtain ⟨hs, hb⟩ := Session.foldl_call calls
    ({ store := { db := d }, batch := levelDBKV.NewBatch { db := d } } : Session MemDB)
  have hb2 : (Session.build { db := d } calls).batch.b = calls.map BatchCall.toOp := by
    simpa [Session.build, levelDBKV.NewBatch, NewBatchLevelDB] using hb
  have hs2 : (Session.build { db := d } calls).store = { db := d } := hs
  refine ⟨hs2, ?_, ?_⟩
  · rw [hs2]
    unfold batchLevelDB.Write
    rw [hb2]
    cases hc : d.closed
    · cases hf : d.fault with
      | none =>
        intro _ k
        simp only [levelDBKV.Get, memBackend, hc, hf, Bool.false_eq_true, if_false]
        rw [foldl_apply_lastCall]
        cases hl : lastCall (bytesOf k) calls with
        | none =>
          cases ht : d.table (bytesOf k) with
          | none => simp [GoError.Error, ErrNotFound]
          | some v0 => simp
        | some r =>
          cases r with
          | none => simp [GoError.Error, ErrNotFound]
          | some v => simp
      | some e => simp [memBackend, hc, hf]
    · simp [memBackend, hc]
  · rw [hs2]
    unfold batchLevelDB.Write
    rw [hb2]
    intro e
    cases hc : d.closed
    · cases hf : d.fault with
      | none => simp [memBackend, hc, hf]
      | some e0 => simp [memBackend, hc, hf]
    · simp [memBackend, hc]

/-- Witness for C8: the batch [Put(a, 1), Put(b, 2)]; committed on the empty
engine both keys are found, and on a failing engine the store is unchanged. -/
theorem Batch_Write_all_or_nothing_witness :
    (batchLevelDB.Write memBackend (Session.build { db := MemDB.empty } twoPuts).batch
        (Session.build { db := MemDB.empty } twoPuts).store).1 = none ∧
    (levelDBKV.Get memBackend
        (batchLevelDB.Write memBackend (Session.build { db := MemDB.empty } twoPuts).batch
          (Session.build { db := MemDB.empty } twoPuts).store).2 (some [97])).1
      = (some [1], true, none) ∧
    (levelDBKV.Get memBackend
        (batchLevelDB.Write memBackend (Session.build { db := MemDB.empty } twoPuts).batch
          (Session.build { db := MemDB.empty } twoPuts).store).2 (some [98])).1
      = (some [2], true, none) ∧
    (batchLevelDB.Write memBackend (Session.build { db := brokenDB } twoPuts).batch
        (Session.build { db := brokenDB } twoPuts).store).2 = { db := brokenDB } :=
  ⟨by decide,
   (Batch_Write_all_or_nothing MemDB.empty twoPuts).2.1 (by decide) (some [97]),
   (Batch_Write_all_or_nothing MemDB.empty twoPuts).2.1 (by decide) (some [98]),
   (Batch_Write_all_or_nothing brokenDB twoPuts).2.2 ErrLocked (by decide)⟩

end leveldb
